import Mathlib

/-!
Verification of the request/response forwarding engine of an HTTPS
reverse proxy (source: `src/proxy.rs`).  The Rust code is shallowly
embedded: header values are byte lists (as in `http::HeaderValue`),
header maps are insertion-ordered association lists with
case-insensitive names (the observable behaviour of `http::HeaderMap`:
`get_all` per name, first-value `get`, replace-all `insert`), and the
fallible constructors (`HeaderValue::from_str`, URI parsing) return
`Option`.
-/

namespace HttpsProxy

/-- A header value: a list of bytes, as stored by `http::HeaderValue`. -/
abbrev HVal := List Nat

/-- Bytes of a Lean string, written via code points; agrees with the
UTF-8 bytes for ASCII strings, which is all the embedding applies it
to (header names, separator/format literals, IP text). -/
def strBytes (s : String) : HVal :=
  s.data.map Char.toNat

/-- ASCII lowercase of one byte. -/
def lowerByte (b : Nat) : Nat :=
  if 65 ≤ b ∧ b ≤ 90 then b + 32 else b

/-- Case-insensitive header-name equality (`http` compares names
case-insensitively; names are ASCII tokens, so byte-wise ASCII
lowercasing is the library's comparison). -/
def nameEq (a b : String) : Bool :=
  (strBytes a).map lowerByte == (strBytes b).map lowerByte

/-- A header map: insertion-ordered list of (name, value) pairs,
multiple entries per name allowed. -/
abbrev HeaderMap := List (String × HVal)

/-- All values for a name, in insertion order (`HeaderMap::get_all`). -/
def getAll (m : HeaderMap) (n : String) : List HVal :=
  (m.filter fun p => nameEq p.1 n).map (fun p => p.2)

/-- The first value for a name (`HeaderMap::get`). -/
def getFirst (m : HeaderMap) (n : String) : Option HVal :=
  (getAll m n).head?

/-- Model of `HeaderMap::contains_key`. -/
def containsKey (m : HeaderMap) (n : String) : Bool :=
  !(getAll m n).isEmpty

/-- Remove every entry with the given name (`HeaderMap::remove` removes
all values of the name). -/
def removeAll (m : HeaderMap) (n : String) : HeaderMap :=
  m.filter fun p => !(nameEq p.1 n)

/-- Model of `HeaderMap::insert`: associate exactly one value with the name,
dropping all previously stored values for it.  Entry position within
the map is immaterial: map equality is taken per-name (`getAll`). -/
def insertH (m : HeaderMap) (n : String) (v : HVal) : HeaderMap :=
  removeAll m n ++ [(n, v)]

/-- A byte `HeaderValue::to_str` accepts: visible ASCII (32–126) or tab.
`to_str` fails on any other byte. -/
def visibleAscii (b : Nat) : Bool :=
  (32 ≤ b && b < 127) || b == 9

/-- Holds iff `HeaderValue::to_str(&v).is_ok()`. -/
def toStrOk (v : HVal) : Bool :=
  v.all visibleAscii

/-- A byte `HeaderValue::from_str` accepts: anything ≥ 32 except DEL,
or tab. -/
def legalValueByte (b : Nat) : Bool :=
  (32 ≤ b && b != 127) || b == 9

/-- Holds iff `HeaderValue::from_str(&s).is_ok()` on the bytes of `s`. -/
def fromStrOk (v : HVal) : Bool :=
  v.all legalValueByte

/-- Whitespace byte for `str::trim` restricted to `to_str`-accepted
values: of the bytes `to_str` lets through, exactly space and tab are
Unicode whitespace. -/
def wsByte (b : Nat) : Bool :=
  b == 32 || b == 9

/-- Model of `str::trim` on a visible-ASCII value: drop space/tab at both ends. -/
def trimB (v : HVal) : HVal :=
  ((v.dropWhile wsByte).reverse.dropWhile wsByte).reverse

/-- The value pipeline `filter_map(to_str)`, `map(trim)`, `filter(non-empty)`
applied to a list of values. -/
def survivorsOf (vs : List HVal) : List HVal :=
  (vs.filterMap fun v => if toStrOk v then some (trimB v) else none).filter
    fun s => !s.isEmpty

/-- The cookie values `normalize_cookie_headers` keeps: `get_all("cookie")`,
`filter_map(to_str)`, `map(trim)`, `filter(non-empty)`. -/
def cookieSurvivors (m : HeaderMap) : List HVal :=
  survivorsOf (getAll m "cookie")

/-- Embedding of `normalize_cookie_headers` (src/proxy.rs:54-74): with at most one
surviving cookie value the map is returned unchanged; otherwise the
survivors are joined with `"; "`, the `cookie` entries removed and the
merged value inserted.  `none` models the `HeaderValue::from_str` error. -/
def normalizeCookieHeaders (m : HeaderMap) : Option HeaderMap :=
  let cookies := cookieSurvivors m
  if cookies.length ≤ 1 then some m
  else
    let merged := List.intercalate (strBytes "; ") cookies
    if fromStrOk merged then some (insertH m "cookie" merged) else none

/-- The `X-Forwarded-For` value computed at src/proxy.rs:89-99: append
the peer IP to the first existing value; a missing value, a value
`to_str` cannot decode (`unwrap_or("")`), or a whitespace-only value
yields the peer IP alone. -/
def xffVal (m : HeaderMap) (ip : HVal) : HVal :=
  match getFirst m "x-forwarded-for" with
  | some existing =>
    let existingStr := if toStrOk existing then existing else []
    if (trimB existingStr).isEmpty then ip
    else existingStr ++ strBytes ", " ++ ip
  | none => ip

/-- Embedding of `add_forwarding_headers` (src/proxy.rs:77-121).  `ip` is the byte
text of `client_addr.ip().to_string()`; `none` models a
`HeaderValue::from_str` error bubbling up through `?`.  The
`x-forwarded-for` read happens after the `x-real-ip` insert, as in the
code. -/
def addForwardingHeaders (m : HeaderMap) (ip : HVal) (originalHost : Option HVal) :
    Option HeaderMap :=
  if fromStrOk ip then
    let m1 := insertH m "x-real-ip" ip
    let xff := xffVal m1 ip
    if fromStrOk xff then
      let m2 := insertH m1 "x-forwarded-for" xff
      let m3 := if containsKey m2 "x-forwarded-proto" then m2
                else insertH m2 "x-forwarded-proto" (strBytes "https")
      let m4 := match originalHost with
        | some host =>
          if containsKey m3 "x-forwarded-host" then m3
          else insertH m3 "x-forwarded-host" host
        | none => m3
      let m5 := if containsKey m4 "x-forwarded-port" then m4
                else insertH m4 "x-forwarded-port" (strBytes "443")
      some m5
    else none
  else none

/-- Embedding of `remove_hop_by_hop_headers` (src/proxy.rs:124-133). -/
def removeHopByHopHeaders (m : HeaderMap) : HeaderMap :=
  removeAll (removeAll (removeAll (removeAll (removeAll (removeAll (removeAll
    (removeAll m "connection") "keep-alive") "proxy-authenticate")
    "proxy-authorization") "te") "trailers") "transfer-encoding") "upgrade"

/-- Holds iff `needle` occurs as a contiguous run inside `hay`. -/
def isPrefixB : List Nat → List Nat → Bool
  | [], _ => true
  | _ :: _, [] => false
  | a :: as, b :: bs => a == b && isPrefixB as bs

def listInfixB (needle : List Nat) : List Nat → Bool
  | [] => needle.isEmpty
  | b :: bs => isPrefixB needle (b :: bs) || listInfixB needle bs

/-- Embedding of `header_contains` (src/proxy.rs:37-43): some value of the name,
decoded by `to_str`, whose lowercase contains `value`.  Values passing
`to_str` are ASCII, so Rust's Unicode `to_lowercase` is byte-wise
ASCII lowercasing on them. -/
def headerContains (m : HeaderMap) (n value : String) : Bool :=
  (getAll m n).any fun v =>
    toStrOk v && listInfixB (strBytes value) (v.map lowerByte)

/-- Embedding of `is_websocket_upgrade` (src/proxy.rs:46-48). -/
def isWebsocketUpgrade (m : HeaderMap) : Bool :=
  headerContains m "connection" "upgrade" && headerContains m "upgrade" "websocket"

/-- A client-facing response: status, headers, body bytes. -/
structure Resp where
  status : Nat
  headers : HeaderMap
  body : HVal
deriving DecidableEq, Repr

/-- Embedding of `bad_gateway_response` (src/proxy.rs:377-384). -/
def badGatewayResponse (message : String) : Resp :=
  { status := 502
    headers := [("content-type", strBytes "text/plain; charset=utf-8")]
    body := strBytes ("502 Bad Gateway - " ++ message) }

/-! ### URIs

`http::Uri` is modelled at its interface: a parse result is the triple
(scheme, authority, path-and-query).  `parseUri` models the library
parser's accepted forms — origin-form (`/...`, fragment discarded),
asterisk-form, absolute-form (`scheme://authority[path?query]`, fragment
discarded, empty authority refused), and authority-form (no scheme) —
with the library's character tables approximated by the sets below
(ports are not validated, matching the library's lazy port handling;
schemes are not case-normalized). -/

def isAlphanumB (b : Nat) : Bool :=
  (48 ≤ b && b ≤ 57) || (65 ≤ b && b ≤ 90) || (97 ≤ b && b ≤ 122)

def schemeCharB (b : Nat) : Bool :=
  isAlphanumB b || b == 43 || b == 45 || b == 46

def authCharB (b : Nat) : Bool :=
  isAlphanumB b ||
    [45, 46, 95, 126, 37, 33, 36, 38, 40, 41, 42, 43, 44, 59, 61, 58, 64, 91, 93].contains b

def pqCharB (b : Nat) : Bool :=
  33 ≤ b && b ≤ 126 && b != 35 && b != 34 && b != 60 && b != 62 &&
    b != 92 && b != 94 && b != 96 && b != 123 && b != 124 && b != 125

structure UriParts where
  scheme : Option HVal
  authority : Option HVal
  pathAndQuery : Option HVal
deriving DecidableEq, Repr

/-- Split `scheme://rest`: the bytes before the first `:` must be a
nonempty run of scheme characters and the `:` must be followed by
`//`; otherwise there is no scheme. -/
def splitScheme (l : HVal) : Option (HVal × HVal) :=
  let pre := l.takeWhile (fun b => b != 58)
  match l.dropWhile (fun b => b != 58) with
  | 58 :: 47 :: 47 :: r =>
    if !pre.isEmpty && pre.all schemeCharB then some (pre, r) else none
  | _ => none

/-- End-of-authority byte: `/`, `?` or `#`. -/
def authEndB (b : Nat) : Bool :=
  b == 47 || b == 63 || b == 35

/-- Model of `http::Uri` parsing on the bytes of the input string. -/
def parseUri (l : HVal) : Option UriParts :=
  if l.isEmpty then none
  else if l == [42] then some ⟨none, none, some [42]⟩
  else if l.head? == some 47 then
    let pq := l.takeWhile (fun b => b != 35)
    if pq.all pqCharB then some ⟨none, none, some pq⟩ else none
  else
    match splitScheme l with
    | some (sch, rest) =>
      let auth := rest.takeWhile (fun b => !authEndB b)
      let tail := rest.dropWhile (fun b => !authEndB b)
      if auth.isEmpty || !auth.all authCharB then none
      else
        let pq := tail.takeWhile (fun b => b != 35)
        if pq.all pqCharB then
          some ⟨some sch, some auth, if pq.isEmpty then none else some pq⟩
        else none
    | none =>
      if l.all authCharB then some ⟨none, some l, none⟩ else none

/-- Embedding of `build_upstream_uri` (src/proxy.rs:186-205): parse the target,
concatenate its scheme (default `http`) and authority (default empty)
with the inbound path-and-query (default `/`), reparse.  The result is
the URI's byte text. -/
def buildUpstreamUri (original : UriParts) (target : HVal) : Option HVal :=
  match parseUri target with
  | none => none
  | some t =>
    let pq := original.pathAndQuery.getD (strBytes "/")
    let s := t.scheme.getD (strBytes "http") ++ strBytes "://" ++ t.authority.getD [] ++ pq
    if (parseUri s).isSome then some s else none

/-- An inbound request, as the handler sees it. -/
structure Req where
  uri : UriParts
  headers : HeaderMap
  body : HVal
deriving DecidableEq, Repr

/-- The outbound request handed to the HTTP client. -/
structure OutReq where
  uri : HVal
  version : String
  headers : HeaderMap
  body : HVal
deriving DecidableEq, Repr

/-- The `Host` capture at the top of `build_upstream_request`
(src/proxy.rs:216-221): the inbound `host` header, else the inbound
URI's authority when it is a representable header value. -/
def capturedHost (req : Req) : Option HVal :=
  match getFirst req.headers "host" with
  | some h => some h
  | none =>
    match req.uri.authority with
    | some a => if fromStrOk a then some a else none
    | none => none

/-- Embedding of `build_upstream_request` (src/proxy.rs:208-239): capture the host,
swap in the upstream URI, pin HTTP/1.1, then add forwarding headers,
strip hop-by-hop headers, and normalize cookies — in the code's order. -/
def buildUpstreamRequest (req : Req) (upstreamUri : HVal) (ip : HVal) : Option OutReq :=
  match addForwardingHeaders req.headers ip (capturedHost req) with
  | none => none
  | some h1 =>
    match normalizeCookieHeaders (removeHopByHopHeaders h1) with
    | none => none
    | some h2 =>
      some { uri := upstreamUri, version := "HTTP/1.1", headers := h2, body := req.body }

/-- Embedding of `forward_request` (src/proxy.rs:136-183).  `client` is the injected
HTTP client: the outcome of one `http_client.request` call on the
outgoing request (`Except.error` is a transport failure whose display
text is the `String`).  Returns the client-facing response and how many
upstream requests were issued; error display texts of the two local
build steps are abstracted as `<error>`. -/
def forwardRequest (req : Req) (target : HVal) (ip : HVal)
    (client : OutReq → Except String Resp) : Resp × Nat :=
  match buildUpstreamUri req.uri target with
  | none => (badGatewayResponse "Invalid upstream URI: <error>", 0)
  | some u =>
    match buildUpstreamRequest req u ip with
    | none => (badGatewayResponse "Failed to build request: <error>", 0)
    | some ureq =>
      match client ureq with
      | Except.ok resp => (resp, 1)
      | Except.error e => (badGatewayResponse ("Upstream connection failed: " ++ e), 1)

/-! ### WebSocket accept key

`tungstenite::handshake::derive_accept_key` is
`base64(sha1(key ++ GUID))` (RFC 6455); SHA-1 and base64 are given
executable definitions so the derivation is computed, not assumed. -/

/-- Truncate to 32 bits. -/
def u32 (x : Nat) : Nat := x % 4294967296

/-- 32-bit left rotation (argument below `2^32`). -/
def rotl (n x : Nat) : Nat := u32 ((x <<< n) ||| (x >>> (32 - n)))

/-- Big-endian bytes of a 64-bit value. -/
def be64 (n : Nat) : HVal :=
  [(n >>> 56) &&& 255, (n >>> 48) &&& 255, (n >>> 40) &&& 255, (n >>> 32) &&& 255,
   (n >>> 24) &&& 255, (n >>> 16) &&& 255, (n >>> 8) &&& 255, n &&& 255]

/-- Big-endian bytes of a 32-bit value. -/
def be32 (n : Nat) : HVal :=
  [(n >>> 24) &&& 255, (n >>> 16) &&& 255, (n >>> 8) &&& 255, n &&& 255]

/-- SHA-1 padding: `0x80`, zeros to 56 mod 64, 64-bit bit length. -/
def sha1Pad (msg : HVal) : HVal :=
  msg ++ [128] ++ List.replicate ((55 + 64 - msg.length % 64) % 64) 0 ++
    be64 (msg.length * 8)

/-- Big-endian 32-bit words of a byte list. -/
def toWords : HVal → List Nat
  | a :: b :: c :: d :: rest =>
    ((a <<< 24) ||| (b <<< 16) ||| (c <<< 8) ||| d) :: toWords rest
  | _ => []

/-- Extend 16 schedule words to 80. -/
def extendWords (ws : List Nat) : List Nat :=
  (List.range 64).foldl
    (fun acc _ =>
      acc ++ [rotl 1 ((acc.getD (acc.length - 3) 0) ^^^ (acc.getD (acc.length - 8) 0) ^^^
        (acc.getD (acc.length - 14) 0) ^^^ (acc.getD (acc.length - 16) 0))])
    ws

abbrev Sha1St := Nat × Nat × Nat × Nat × Nat

/-- One SHA-1 round. -/
def sha1Round (w : List Nat) (st : Sha1St) (i : Nat) : Sha1St :=
  let (a, b, c, d, e) := st
  let f :=
    if i < 20 then (b &&& c) ||| ((4294967295 ^^^ b) &&& d)
    else if i < 40 then b ^^^ c ^^^ d
    else if i < 60 then (b &&& c) ||| (b &&& d) ||| (c &&& d)
    else b ^^^ c ^^^ d
  let k :=
    if i < 20 then 1518500249
    else if i < 40 then 1859775393
    else if i < 60 then 2400959708
    else 3395469782
  (u32 (rotl 5 a + f + e + k + w.getD i 0), a, rotl 30 b, c, d)

/-- Compress one 64-byte chunk. -/
def sha1Compress (h : Sha1St) (chunk : HVal) : Sha1St :=
  let w := extendWords (toWords chunk)
  let (h0, h1, h2, h3, h4) := h
  let (a, b, c, d, e) := (List.range 80).foldl (sha1Round w) (h0, h1, h2, h3, h4)
  (u32 (h0 + a), u32 (h1 + b), u32 (h2 + c), u32 (h3 + d), u32 (h4 + e))

/-- Fold `sha1Compress` over the 64-byte chunks; the fuel is an upper
bound on the chunk count (each step consumes 64 bytes) keeping the
recursion structural. -/
def sha1Chunks : Nat → HVal → Sha1St → Sha1St
  | 0, _, h => h
  | _ + 1, [], h => h
  | n + 1, x :: xs, h =>
    sha1Chunks n ((x :: xs).drop 64) (sha1Compress h ((x :: xs).take 64))

/-- SHA-1 digest (20 bytes) of a byte list. -/
def sha1 (msg : HVal) : HVal :=
  let p := sha1Pad msg
  let (h0, h1, h2, h3, h4) :=
    sha1Chunks p.length p (1732584193, 4023233417, 2562383102, 271733878, 3285377520)
  be32 h0 ++ be32 h1 ++ be32 h2 ++ be32 h3 ++ be32 h4

/-- Standard base64 alphabet, as an ASCII byte. -/
def b64Char (n : Nat) : Nat :=
  if n < 26 then 65 + n
  else if n < 52 then 97 + (n - 26)
  else if n < 62 then 48 + (n - 52)
  else if n == 62 then 43
  else 47

/-- Standard base64 encoding with `=` padding, as ASCII bytes. -/
def base64Bytes : HVal → HVal
  | [] => []
  | [a] => [b64Char (a >>> 2), b64Char ((a &&& 3) <<< 4), 61, 61]
  | [a, b] =>
    [b64Char (a >>> 2), b64Char (((a &&& 3) <<< 4) ||| (b >>> 4)),
     b64Char ((b &&& 15) <<< 2), 61]
  | a :: b :: c :: rest =>
    [b64Char (a >>> 2), b64Char (((a &&& 3) <<< 4) ||| (b >>> 4)),
     b64Char (((b &&& 15) <<< 2) ||| (c >>> 6)), b64Char (c &&& 63)] ++ base64Bytes rest

/-- The fixed RFC 6455 GUID used by `derive_accept_key`. -/
def wsGuid : String := "258EAFA5-E914-47DA-95CA-C5AB0DC85B11"

/-- Model of `tungstenite::handshake::derive_accept_key` on the key header's
bytes. -/
def deriveAcceptKey (key : HVal) : HVal :=
  base64Bytes (sha1 (key ++ strBytes wsGuid))

/-- Embedding of `handle_websocket_upgrade`, handshake part (src/proxy.rs:242-287,
298-305).  The second component is the upstream connect invocation the
spawned tunnel task will make once the client leg upgrades: the
computed upstream URL, the only request-dependent argument of
`connect_async_tls_with_config(upstream_url, None, false,
Some(connector))` (`None` config and the route's TLS connector are
request-independent).  `none` means no upstream connection is
attempted. -/
def handleWebsocketUpgrade (req : Req) (target : HVal) : Resp × Option HVal :=
  match parseUri target with
  | none => (badGatewayResponse "Invalid target URI: <error>", none)
  | some t =>
    let scheme := if t.scheme == some (strBytes "https") then strBytes "wss" else strBytes "ws"
    let pq := req.uri.pathAndQuery.getD (strBytes "/")
    let upstreamUrl := scheme ++ strBytes "://" ++ t.authority.getD [] ++ pq
    match getFirst req.headers "sec-websocket-key" with
    | none => (badGatewayResponse "Missing Sec-WebSocket-Key", none)
    | some key =>
      ({ status := 101
         headers := [("Connection", strBytes "Upgrade"),
                     ("Upgrade", strBytes "websocket"),
                     ("Sec-WebSocket-Accept", deriveAcceptKey key)]
         body := [] }, some upstreamUrl)

/-- One relay direction of the tunnel (src/proxy.rs:324-357), as a
function over the sequence of `next()` results on the receiving leg
(list end = stream end, `Except.error` = receive error) and the
sending leg's per-message success.  Messages are an opaque type, so a
forwarded message is forwarded with content and type unchanged.
Returns the messages actually forwarded, in order. -/
def relayLoop {α : Type} (send : α → Bool) : List (Except Unit α) → List α
  | [] => []
  | Except.error _ :: _ => []
  | Except.ok m :: rest => if send m then m :: relayLoop send rest else []

/-! ### Header-map lemmas -/

/-- The comparison key of a header name. -/
def nameKey (s : String) : List Nat :=
  (strBytes s).map lowerByte

theorem nameEq_iff (a b : String) : nameEq a b = true ↔ nameKey a = nameKey b := by
  simp [nameEq, nameKey]

theorem getAll_append (m₁ m₂ : HeaderMap) (n : String) :
    getAll (m₁ ++ m₂) n = getAll m₁ n ++ getAll m₂ n := by
  simp [getAll, List.filter_append]

theorem getAll_removeAll (m : HeaderMap) (n n' : String) :
    getAll (removeAll m n') n =
      if nameKey n = nameKey n' then [] else getAll m n := by
  unfold getAll removeAll
  rw [List.filter_filter]
  by_cases h : nameKey n = nameKey n'
  · simp only [h, if_pos]
    have hpred : ∀ p : String × HVal, p ∈ m →
        (nameEq p.1 n && !nameEq p.1 n') = false := by
      intro p _
      by_cases hp : nameEq p.1 n = true
      · have : nameEq p.1 n' = true := by
          rw [nameEq_iff] at hp ⊢; rw [hp, h]
        simp [this]
      · simp [Bool.eq_false_iff.2 hp]
    rw [List.filter_congr hpred]
    simp
  · simp only [h, if_neg, not_false_iff]
    have hpred : ∀ p : String × HVal, p ∈ m →
        (nameEq p.1 n && !nameEq p.1 n') = nameEq p.1 n := by
      intro p _
      by_cases hp : nameEq p.1 n = true
      · have hn' : nameEq p.1 n' = false := by
          by_contra hc
          have hc' : nameEq p.1 n' = true := by
            cases hx : nameEq p.1 n' with
            | true => rfl
            | false => exact absurd hx hc
          rw [nameEq_iff] at hp hc'
          exact h (hp ▸ hc' ▸ rfl)
        simp [hp, hn']
      · simp [Bool.eq_false_iff.2 hp]
    rw [List.filter_congr hpred]

theorem getAll_insertH (m : HeaderMap) (n n' : String) (v : HVal) :
    getAll (insertH m n' v) n =
      if nameKey n = nameKey n' then [v] else getAll m n := by
  unfold insertH
  rw [getAll_append, getAll_removeAll]
  by_cases h : nameKey n = nameKey n'
  · have : nameEq n' n = true := by rw [nameEq_iff]; exact h.symm
    simp [h, getAll, this]
  · have : nameEq n' n = false := by
      by_contra hc
      have hc' : nameEq n' n = true := by
        cases hx : nameEq n' n with
        | true => rfl
        | false => exact absurd hx hc
      rw [nameEq_iff] at hc'
      exact h hc'.symm
    simp [h, getAll, this]

theorem getFirst_insertH (m : HeaderMap) (n n' : String) (v : HVal) :
    getFirst (insertH m n' v) n =
      if nameKey n = nameKey n' then some v else getFirst m n := by
  unfold getFirst
  rw [getAll_insertH]
  split <;> simp

theorem containsKey_insertH (m : HeaderMap) (n n' : String) (v : HVal) :
    containsKey (insertH m n' v) n =
      if nameKey n = nameKey n' then true else containsKey m n := by
  unfold containsKey
  rw [getAll_insertH]
  split <;> simp

/-! ### Value-byte lemmas: everything `to_str` accepts, `from_str` accepts -/

theorem legal_of_visible {b : Nat} (h : visibleAscii b = true) : legalValueByte b = true := by
  unfold visibleAscii at h
  unfold legalValueByte
  rcases Bool.or_eq_true_iff.1 h with h' | h'
  · rcases Bool.and_eq_true_iff.1 h' with ⟨h1, h2⟩
    have hb1 : 32 ≤ b := by exact Nat.le_of_ble_eq_true (by simpa using h1)
    have hb2 : b < 127 := by simpa using h2
    simp [Nat.le_of_ble_eq_true, hb1, Nat.ne_of_lt hb2]
  · simp [h']

theorem mem_trimB {x : Nat} {v : HVal} (h : x ∈ trimB v) : x ∈ v := by
  unfold trimB at h
  rw [List.mem_reverse] at h
  have h1 := (List.dropWhile_sublist (l := (v.dropWhile wsByte).reverse) (p := wsByte)).mem h
  rw [List.mem_reverse] at h1
  exact (List.dropWhile_sublist (l := v) (p := wsByte)).mem h1

theorem toStrOk_trimB {v : HVal} (h : toStrOk v = true) : toStrOk (trimB v) = true := by
  rw [toStrOk, List.all_eq_true] at h ⊢
  exact fun x hx => h x (mem_trimB hx)

theorem survivors_toStrOk {vs : List HVal} {v : HVal} (h : v ∈ survivorsOf vs) :
    toStrOk v = true := by
  unfold survivorsOf at h
  have h1 := List.mem_of_mem_filter h
  rcases List.mem_filterMap.1 h1 with ⟨u, _, hu⟩
  by_cases ht : toStrOk u = true
  · rw [if_pos ht] at hu
    cases hu
    exact toStrOk_trimB ht
  · rw [if_neg ht] at hu
    cases hu

theorem fromStrOk_append {a b : HVal} :
    fromStrOk (a ++ b) = (fromStrOk a && fromStrOk b) := by
  simp [fromStrOk, List.all_append]

theorem fromStrOk_of_toStrOk {v : HVal} (h : toStrOk v = true) : fromStrOk v = true := by
  rw [toStrOk, List.all_eq_true] at h
  rw [fromStrOk, List.all_eq_true]
  exact fun x hx => legal_of_visible (h x hx)

theorem mem_of_mem_intersperse {α : Type} {sep u : α} :
    ∀ {l : List α}, u ∈ List.intersperse sep l → u = sep ∨ u ∈ l
  | [], h => by simp [List.intersperse] at h
  | [a], h => by
    simp [List.intersperse] at h
    simp [h]
  | a :: b :: t, h => by
    rw [List.intersperse_cons_cons] at h
    rcases List.mem_cons.1 h with h | h
    · right
      simp [h]
    · rcases List.mem_cons.1 h with h | h
      · left
        exact h
      · rcases mem_of_mem_intersperse h with h | h
        · left
          exact h
        · right
          simp [h]

theorem fromStrOk_intercalate {sep : HVal} {l : List HVal}
    (hs : fromStrOk sep = true) (hl : ∀ v ∈ l, fromStrOk v = true) :
    fromStrOk (List.intercalate sep l) = true := by
  rw [fromStrOk, List.all_eq_true]
  intro x hx
  rw [List.intercalate, List.mem_flatten] at hx
  rcases hx with ⟨u, hu, hxu⟩
  rcases mem_of_mem_intersperse hu with h | h
  · rw [fromStrOk, List.all_eq_true] at hs
    exact hs x (h ▸ hxu)
  · have := hl u h
    rw [fromStrOk, List.all_eq_true] at this
    exact this x hxu

/-- The merged cookie value is always a representable header value:
every surviving cookie byte passed `to_str` and the separator is
visible ASCII, so `HeaderValue::from_str` cannot fail in
`normalize_cookie_headers`. -/
theorem merged_cookie_legal (m : HeaderMap) :
    fromStrOk (List.intercalate (strBytes "; ") (cookieSurvivors m)) = true := by
  apply fromStrOk_intercalate (by decide)
  intro v hv
  exact fromStrOk_of_toStrOk (survivors_toStrOk hv)

/-- The total form of `normalize_cookie_headers`. -/
def normTotal (m : HeaderMap) : HeaderMap :=
  if (cookieSurvivors m).length ≤ 1 then m
  else insertH m "cookie" (List.intercalate (strBytes "; ") (cookieSurvivors m))

/-- Lemma: `normalize_cookie_headers` never fails, and computes `normTotal`. -/
theorem normalizeCookieHeaders_eq (m : HeaderMap) :
    normalizeCookieHeaders m = some (normTotal m) := by
  unfold normalizeCookieHeaders normTotal
  by_cases h : (cookieSurvivors m).length ≤ 1
  · simp [h]
  · simp [h, merged_cookie_legal m]

theorem getAll_normTotal_ne (m : HeaderMap) (n : String)
    (h : nameKey n ≠ nameKey "cookie") :
    getAll (normTotal m) n = getAll m n := by
  unfold normTotal
  split
  · rfl
  · rw [getAll_insertH, if_neg h]

theorem getAll_normTotal_cookie (m : HeaderMap) :
    getAll (normTotal m) "cookie" =
      if (cookieSurvivors m).length ≤ 1 then getAll m "cookie"
      else [List.intercalate (strBytes "; ") (cookieSurvivors m)] := by
  unfold normTotal
  split
  · rfl
  · rw [getAll_insertH, if_pos rfl]

/-! ### Forwarding-header lemmas -/

theorem xffVal_congr {m m' : HeaderMap} (ip : HVal)
    (h : getFirst m' "x-forwarded-for" = getFirst m "x-forwarded-for") :
    xffVal m' ip = xffVal m ip := by
  unfold xffVal
  rw [h]

theorem xffVal_legal (m : HeaderMap) {ip : HVal} (h : fromStrOk ip = true) :
    fromStrOk (xffVal m ip) = true := by
  unfold xffVal
  cases hg : getFirst m "x-forwarded-for" with
  | none => exact h
  | some existing =>
    simp only
    by_cases ht : toStrOk existing = true
    · by_cases he : (trimB (if toStrOk existing then existing else [])).isEmpty = true
      · rw [if_pos he]
        exact h
      · rw [if_neg he, if_pos ht]
        rw [fromStrOk_append, fromStrOk_append]
        rw [fromStrOk_of_toStrOk ht, h]
        decide
    · have ht' : toStrOk existing = false := Bool.eq_false_iff.2 ht
      simp [ht', trimB, h]

/-- The total form of `add_forwarding_headers`: its reads rewritten onto the
input map (the values it inserts before each read do not alias the
read names). -/
def fwdTotal (m : HeaderMap) (ip : HVal) (host : Option HVal) : HeaderMap :=
  let m2 := insertH (insertH m "x-real-ip" ip) "x-forwarded-for" (xffVal m ip)
  let m3 := if containsKey m "x-forwarded-proto" then m2
            else insertH m2 "x-forwarded-proto" (strBytes "https")
  let m4 := match host with
    | some h =>
      if containsKey m "x-forwarded-host" then m3
      else insertH m3 "x-forwarded-host" h
    | none => m3
  if containsKey m "x-forwarded-port" then m4
  else insertH m4 "x-forwarded-port" (strBytes "443")

/-- With a representable IP text, `add_forwarding_headers` cannot fail
and computes `fwdTotal`. -/
theorem addForwardingHeaders_eq (m : HeaderMap) {ip : HVal} (host : Option HVal)
    (h : fromStrOk ip = true) :
    addForwardingHeaders m ip host = some (fwdTotal m ip host) := by
  unfold addForwardingHeaders fwdTotal
  rw [if_pos h]
  have hx : xffVal (insertH m "x-real-ip" ip) ip = xffVal m ip :=
    xffVal_congr ip (by rw [getFirst_insertH, if_neg (by decide)])
  rcases host with _ | hostv <;>
    by_cases hproto : containsKey m "x-forwarded-proto" = true <;>
    by_cases hhost : containsKey m "x-forwarded-host" = true <;>
    by_cases hport : containsKey m "x-forwarded-port" = true <;>
    simp +decide [hx, xffVal_legal m h, containsKey_insertH, hproto, hhost, hport]

theorem getAll_key_congr (m : HeaderMap) {n n' : String}
    (h : nameKey n = nameKey n') : getAll m n = getAll m n' := by
  unfold getAll
  rw [List.filter_congr (fun p _ => ?_)]
  by_cases hp : nameEq p.1 n' = true
  · rw [hp, nameEq_iff]
    rw [nameEq_iff] at hp
    exact h ▸ hp
  · have hp' : nameEq p.1 n' = false := Bool.eq_false_iff.2 hp
    rw [hp']
    rw [Bool.eq_false_iff] at hp' ⊢
    intro hc
    rw [nameEq_iff] at hc
    exact hp' ((nameEq_iff _ _).2 (hc.trans h))

theorem getAll_fwdTotal_other (m : HeaderMap) (ip : HVal) (host : Option HVal) (n : String)
    (h1 : nameKey n ≠ nameKey "x-real-ip")
    (h2 : nameKey n ≠ nameKey "x-forwarded-for")
    (h3 : nameKey n ≠ nameKey "x-forwarded-proto")
    (h4 : nameKey n ≠ nameKey "x-forwarded-host")
    (h5 : nameKey n ≠ nameKey "x-forwarded-port") :
    getAll (fwdTotal m ip host) n = getAll m n := by
  unfold fwdTotal
  rcases host with _ | hostv <;>
    by_cases hproto : containsKey m "x-forwarded-proto" = true <;>
    by_cases hhost : containsKey m "x-forwarded-host" = true <;>
    by_cases hport : containsKey m "x-forwarded-port" = true <;>
    simp [getAll_insertH, h1, h2, h3, h4, h5, hproto, hhost, hport]

theorem getAll_fwdTotal_realip (m : HeaderMap) (ip : HVal) (host : Option HVal) :
    getAll (fwdTotal m ip host) "x-real-ip" = [ip] := by
  unfold fwdTotal
  rcases host with _ | hostv <;>
    by_cases hproto : containsKey m "x-forwarded-proto" = true <;>
    by_cases hhost : containsKey m "x-forwarded-host" = true <;>
    by_cases hport : containsKey m "x-forwarded-port" = true <;>
    simp +decide [getAll_insertH, hproto, hhost, hport]

theorem getAll_fwdTotal_xff (m : HeaderMap) (ip : HVal) (host : Option HVal) :
    getAll (fwdTotal m ip host) "x-forwarded-for" = [xffVal m ip] := by
  unfold fwdTotal
  rcases host with _ | hostv <;>
    by_cases hproto : containsKey m "x-forwarded-proto" = true <;>
    by_cases hhost : containsKey m "x-forwarded-host" = true <;>
    by_cases hport : containsKey m "x-forwarded-port" = true <;>
    simp +decide [getAll_insertH, hproto, hhost, hport]

theorem getAll_fwdTotal_proto (m : HeaderMap) (ip : HVal) (host : Option HVal) :
    getAll (fwdTotal m ip host) "x-forwarded-proto" =
      if containsKey m "x-forwarded-proto" = true then getAll m "x-forwarded-proto"
      else [strBytes "https"] := by
  unfold fwdTotal
  rcases host with _ | hostv <;>
    by_cases hproto : containsKey m "x-forwarded-proto" = true <;>
    by_cases hhost : containsKey m "x-forwarded-host" = true <;>
    by_cases hport : containsKey m "x-forwarded-port" = true <;>
    simp +decide [getAll_insertH, hproto, hhost, hport]

theorem getAll_fwdTotal_host (m : HeaderMap) (ip : HVal) (host : Option HVal) :
    getAll (fwdTotal m ip host) "x-forwarded-host" =
      match host with
      | some h =>
        if containsKey m "x-forwarded-host" = true then getAll m "x-forwarded-host" else [h]
      | none => getAll m "x-forwarded-host" := by
  unfold fwdTotal
  rcases host with _ | hostv <;>
    by_cases hproto : containsKey m "x-forwarded-proto" = true <;>
    by_cases hhost : containsKey m "x-forwarded-host" = true <;>
    by_cases hport : containsKey m "x-forwarded-port" = true <;>
    simp +decide [getAll_insertH, hproto, hhost, hport]

theorem getAll_fwdTotal_port (m : HeaderMap) (ip : HVal) (host : Option HVal) :
    getAll (fwdTotal m ip host) "x-forwarded-port" =
      if containsKey m "x-forwarded-port" = true then getAll m "x-forwarded-port"
      else [strBytes "443"] := by
  unfold fwdTotal
  rcases host with _ | hostv <;>
    by_cases hproto : containsKey m "x-forwarded-proto" = true <;>
    by_cases hhost : containsKey m "x-forwarded-host" = true <;>
    by_cases hport : containsKey m "x-forwarded-port" = true <;>
    simp +decide [getAll_insertH, hproto, hhost, hport]

/-- Whether a name is one of the eight stripped hop-by-hop names. -/
def isHopName (n : String) : Prop :=
  nameKey n = nameKey "connection" ∨ nameKey n = nameKey "keep-alive" ∨
  nameKey n = nameKey "proxy-authenticate" ∨ nameKey n = nameKey "proxy-authorization" ∨
  nameKey n = nameKey "te" ∨ nameKey n = nameKey "trailers" ∨
  nameKey n = nameKey "transfer-encoding" ∨ nameKey n = nameKey "upgrade"

instance (n : String) : Decidable (isHopName n) := by
  unfold isHopName
  infer_instance

theorem getAll_removeHop (m : HeaderMap) (n : String) :
    getAll (removeHopByHopHeaders m) n =
      if isHopName n then [] else getAll m n := by
  unfold removeHopByHopHeaders
  simp only [getAll_removeAll]
  by_cases hd : isHopName n
  · rw [if_pos hd]
    rcases hd with h | h | h | h | h | h | h | h <;> simp +decide [h]
  · rw [if_neg hd]
    unfold isHopName at hd
    push_neg at hd
    obtain ⟨d1, d2, d3, d4, d5, d6, d7, d8⟩ := hd
    simp [d1, d2, d3, d4, d5, d6, d7, d8]

/-! ### Pipeline order -/

/-- Model of `http::HeaderMap` equality as observed through `get_all`: the same
values, in the same order, for every name. -/
def headerEquiv (a b : HeaderMap) : Prop :=
  ∀ n, getAll a n = getAll b n

/-- The header pipeline in the order the spec mandates (its words:
cookie normalization, then forwarding headers, then hop-by-hop
stripping), for comparison against the implementation's order. -/
def specOrderPipeline (m : HeaderMap) (ip : HVal) (host : Option HVal) :
    Option HeaderMap :=
  (normalizeCookieHeaders m).bind fun m1 =>
    (addForwardingHeaders m1 ip host).map removeHopByHopHeaders

/-- Core order-exchange fact: normalizing cookies after forwarding
headers and hop-by-hop stripping (the code) observes the same header
map as normalizing first (the spec): the three operations touch
disjoint names and the inserted forwarding values do not depend on the
cookie entries. -/
theorem pipeline_equiv (m : HeaderMap) (ip : HVal) (host : Option HVal) :
    headerEquiv (normTotal (removeHopByHopHeaders (fwdTotal m ip host)))
      (removeHopByHopHeaders (fwdTotal (normTotal m) ip host)) := by
  have hck : getAll (removeHopByHopHeaders (fwdTotal m ip host)) "cookie" =
      getAll m "cookie" := by
    rw [getAll_removeHop, if_neg (by decide)]
    exact getAll_fwdTotal_other m ip host "cookie"
      (by decide) (by decide) (by decide) (by decide) (by decide)
  have hsurv : cookieSurvivors (removeHopByHopHeaders (fwdTotal m ip host)) =
      cookieSurvivors m := by
    unfold cookieSurvivors
    rw [hck]
  have hxffn : xffVal (normTotal m) ip = xffVal m ip := by
    refine xffVal_congr ip ?_
    unfold getFirst
    rw [getAll_normTotal_ne m _ (by decide)]
  have hcpn : containsKey (normTotal m) "x-forwarded-proto" =
      containsKey m "x-forwarded-proto" := by
    unfold containsKey
    rw [getAll_normTotal_ne m _ (by decide)]
  have hchn : containsKey (normTotal m) "x-forwarded-host" =
      containsKey m "x-forwarded-host" := by
    unfold containsKey
    rw [getAll_normTotal_ne m _ (by decide)]
  have hcqn : containsKey (normTotal m) "x-forwarded-port" =
      containsKey m "x-forwarded-port" := by
    unfold containsKey
    rw [getAll_normTotal_ne m _ (by decide)]
  intro n
  by_cases hcookie : nameKey n = nameKey "cookie"
  · rw [getAll_key_congr _ hcookie, getAll_key_congr _ hcookie]
    rw [getAll_removeHop, if_neg (show ¬ isHopName "cookie" by decide)]
    rw [getAll_fwdTotal_other (normTotal m) ip host "cookie"
      (by decide) (by decide) (by decide) (by decide) (by decide)]
    rw [getAll_normTotal_cookie, getAll_normTotal_cookie, hsurv, hck]
  · by_cases hhop : isHopName n
    · rw [getAll_normTotal_ne _ _ hcookie, getAll_removeHop, if_pos hhop,
        getAll_removeHop, if_pos hhop]
    · rw [getAll_normTotal_ne _ _ hcookie, getAll_removeHop, if_neg hhop,
        getAll_removeHop, if_neg hhop]
      by_cases h1 : nameKey n = nameKey "x-real-ip"
      · rw [getAll_key_congr _ h1, getAll_key_congr _ h1,
          getAll_fwdTotal_realip, getAll_fwdTotal_realip]
      · by_cases h2 : nameKey n = nameKey "x-forwarded-for"
        · rw [getAll_key_congr _ h2, getAll_key_congr _ h2,
            getAll_fwdTotal_xff, getAll_fwdTotal_xff, hxffn]
        · by_cases h3 : nameKey n = nameKey "x-forwarded-proto"
          · rw [getAll_key_congr _ h3, getAll_key_congr _ h3,
              getAll_fwdTotal_proto, getAll_fwdTotal_proto, hcpn,
              getAll_normTotal_ne m _ (by decide)]
          · by_cases h4 : nameKey n = nameKey "x-forwarded-host"
            · rw [getAll_key_congr _ h4, getAll_key_congr _ h4,
                getAll_fwdTotal_host, getAll_fwdTotal_host, hchn,
                getAll_normTotal_ne m _ (by decide)]
            · by_cases h5 : nameKey n = nameKey "x-forwarded-port"
              · rw [getAll_key_congr _ h5, getAll_key_congr _ h5,
                  getAll_fwdTotal_port, getAll_fwdTotal_port, hcqn,
                  getAll_normTotal_ne m _ (by decide)]
              · rw [getAll_fwdTotal_other m ip host n h1 h2 h3 h4 h5,
                  getAll_fwdTotal_other (normTotal m) ip host n h1 h2 h3 h4 h5,
                  getAll_normTotal_ne _ _ hcookie]

/-! ### URI parsing lemmas -/

theorem takeWhile_append_all {α : Type} (p : α → Bool) (l1 l2 : List α)
    (h : ∀ x ∈ l1, p x = true) :
    (l1 ++ l2).takeWhile p = l1 ++ l2.takeWhile p := by
  induction l1 with
  | nil => simp
  | cons a t ih =>
    simp only [List.cons_append, List.takeWhile_cons]
    rw [h a (by simp), ih (fun x hx => h x (by simp [hx]))]
    simp

theorem dropWhile_append_all {α : Type} (p : α → Bool) (l1 l2 : List α)
    (h : ∀ x ∈ l1, p x = true) :
    (l1 ++ l2).dropWhile p = l2.dropWhile p := by
  induction l1 with
  | nil => simp
  | cons a t ih =>
    simp only [List.cons_append, List.dropWhile_cons]
    rw [h a (by simp), ih (fun x hx => h x (by simp [hx]))]
    simp

theorem takeWhile_all {α : Type} (p : α → Bool) (l : List α)
    (h : ∀ x ∈ l, p x = true) : l.takeWhile p = l := by
  have := takeWhile_append_all p l [] h
  simpa using this

theorem schemeCharB_ne58 {b : Nat} (h : schemeCharB b = true) : (b != 58) = true := by
  refine bne_iff_ne.2 fun hb => ?_
  rw [hb] at h
  exact absurd h (by decide)

theorem authCharB_notEnd {b : Nat} (h : authCharB b = true) : (!authEndB b) = true := by
  by_cases he : authEndB b = true
  · exfalso
    unfold authEndB at he
    simp only [Bool.or_eq_true, beq_iff_eq] at he
    rcases he with (rfl | rfl) | rfl <;> exact absurd h (by decide)
  · simp [Bool.eq_false_iff.2 he]

theorem pqCharB_ne35 {b : Nat} (h : pqCharB b = true) : (b != 35) = true := by
  refine bne_iff_ne.2 fun hb => ?_
  rw [hb] at h
  exact absurd h (by decide)

/-- Parsing an absolute-form URI assembled from a valid scheme, a
valid nonempty authority, and a valid path (absent or `/`-led)
recovers exactly those components. -/
theorem parseUri_absolute (sch auth tpath : HVal)
    (hs0 : sch ≠ []) (hs : sch.all schemeCharB = true)
    (ha0 : auth ≠ []) (ha : auth.all authCharB = true)
    (ht : tpath.all pqCharB = true)
    (ht0 : tpath = [] ∨ tpath.head? = some 47) :
    parseUri (sch ++ [58, 47, 47] ++ auth ++ tpath) =
      some ⟨some sch, some auth, if tpath.isEmpty then none else some tpath⟩ := by
  obtain ⟨s0, st, rfl⟩ : ∃ s0 st, sch = s0 :: st := by
    cases sch with
    | nil => exact absurd rfl hs0
    | cons a t => exact ⟨a, t, rfl⟩
  obtain ⟨a0, au, rfl⟩ : ∃ a0 au, auth = a0 :: au := by
    cases auth with
    | nil => exact absurd rfl ha0
    | cons a t => exact ⟨a, t, rfl⟩
  rw [List.all_eq_true] at hs ht
  have hsplit : splitScheme ((s0 :: st) ++ [58, 47, 47] ++ (a0 :: au) ++ tpath) =
      some (s0 :: st, (a0 :: au) ++ tpath) := by
    unfold splitScheme
    have hpre : ∀ x ∈ s0 :: st, (x != 58) = true :=
      fun x hx => schemeCharB_ne58 (hs x hx)
    simp only [List.append_assoc]
    rw [takeWhile_append_all _ _ _ hpre, dropWhile_append_all _ _ _ hpre]
    simp only [List.cons_append, List.nil_append, List.takeWhile_cons,
      List.dropWhile_cons, bne_self_eq_false, Bool.false_eq_true, if_false,
      List.append_nil]
    rw [if_pos]
    simp only [List.isEmpty_cons, Bool.not_false, Bool.true_and]
    rw [List.all_eq_true]
    exact fun x hx => hs x hx
  have hauthAll : (a0 :: au).all authCharB = true := ha
  rw [List.all_eq_true] at ha
  have hauth : ∀ x ∈ a0 :: au, (!authEndB x) = true :=
    fun x hx => authCharB_notEnd (ha x hx)
  unfold parseUri
  rw [if_neg (by simp)]
  rw [if_neg ?hstar]
  case hstar =>
    intro hbeq
    have hlen := congrArg List.length (eq_of_beq hbeq)
    simp at hlen
  rw [if_neg ?hhead]
  case hhead =>
    intro hbeq
    simp only [List.cons_append, List.head?_cons] at hbeq
    have h47 : s0 = 47 := by simpa using hbeq
    have hc := hs s0 (by simp)
    rw [h47] at hc
    exact absurd hc (by decide)
  rw [hsplit]
  simp only
  rw [takeWhile_append_all _ _ _ hauth, dropWhile_append_all _ _ _ hauth]
  rcases ht0 with h0 | h0
  · subst h0
    simp only [List.takeWhile_nil, List.dropWhile_nil, List.append_nil]
    rw [if_neg ?hcond1]
    case hcond1 =>
      simp only [List.isEmpty_cons, Bool.false_or, Bool.not_eq_true']
      intro hc
      rw [hauthAll] at hc
      simp at hc
    simp
  · obtain ⟨tt, rfl⟩ : ∃ tt, tpath = 47 :: tt := by
      cases tpath with
      | nil => simp at h0
      | cons a t =>
        have ha47 : a = 47 := by simpa using h0
        exact ⟨t, by rw [ha47]⟩
    have htw : List.takeWhile (fun b => !authEndB b) (47 :: tt) = [] := by
      simp [List.takeWhile_cons, authEndB]
    have hdw : List.dropWhile (fun b => !authEndB b) (47 :: tt) = 47 :: tt := by
      simp [List.dropWhile_cons, authEndB]
    rw [htw, hdw, List.append_nil]
    rw [if_neg ?hcond2]
    case hcond2 =>
      simp only [List.isEmpty_cons, Bool.false_or, Bool.not_eq_true']
      intro hc
      rw [hauthAll] at hc
      simp at hc
    rw [takeWhile_all _ _ (fun x hx => pqCharB_ne35 (ht x hx)),
      if_pos (List.all_eq_true.2 ht)]

theorem buildUpstreamUri_absolute (orig : UriParts) (sch auth tpath : HVal)
    (hs0 : sch ≠ []) (hs : sch.all schemeCharB = true)
    (ha0 : auth ≠ []) (ha : auth.all authCharB = true)
    (ht : tpath.all pqCharB = true) (ht0 : tpath = [] ∨ tpath.head? = some 47)
    (hpq : (orig.pathAndQuery.getD (strBytes "/")).all pqCharB = true)
    (hpq0 : (orig.pathAndQuery.getD (strBytes "/")).head? = some 47) :
    buildUpstreamUri orig (sch ++ [58, 47, 47] ++ auth ++ tpath) =
      some (sch ++ [58, 47, 47] ++ auth ++ orig.pathAndQuery.getD (strBytes "/")) := by
  unfold buildUpstreamUri
  rw [parseUri_absolute sch auth tpath hs0 hs ha0 ha ht ht0]
  have hsep : strBytes "://" = [58, 47, 47] := by decide
  simp only [Option.getD_some, hsep]
  rw [parseUri_absolute sch auth (orig.pathAndQuery.getD (strBytes "/"))
    hs0 hs ha0 ha hpq (Or.inr hpq0)]
  simp

/-! ### Substring and survivor lemmas -/

theorem isPrefixB_iff (n : List Nat) : ∀ h : List Nat,
    (isPrefixB n h = true ↔ ∃ r, h = n ++ r) := by
  induction n with
  | nil => intro h; simp [isPrefixB]
  | cons a t ih =>
    intro h
    cases h with
    | nil =>
      simp [isPrefixB]
    | cons b bs =>
      simp only [isPrefixB, Bool.and_eq_true, beq_iff_eq]
      constructor
      · rintro ⟨rfl, hp⟩
        rcases (ih bs).1 hp with ⟨r, rfl⟩
        exact ⟨r, rfl⟩
      · rintro ⟨r, hr⟩
        rw [List.cons_append] at hr
        injection hr with h1 h2
        exact ⟨h1.symm, (ih bs).2 ⟨r, h2⟩⟩

theorem listInfixB_iff (n : List Nat) : ∀ h : List Nat,
    (listInfixB n h = true ↔ ∃ l r, h = l ++ n ++ r) := by
  intro h
  induction h with
  | nil =>
    simp only [listInfixB, List.isEmpty_iff]
    constructor
    · rintro rfl
      exact ⟨[], [], rfl⟩
    · rintro ⟨l, r, hr⟩
      rcases List.append_eq_nil.1 (List.append_eq_nil.1 hr.symm).1 with ⟨_, h2⟩
      exact h2
  | cons b bs ih =>
    simp only [listInfixB, Bool.or_eq_true, isPrefixB_iff, ih]
    constructor
    · rintro (⟨r, hr⟩ | ⟨l, r, hr⟩)
      · exact ⟨[], r, by simp [hr]⟩
      · exact ⟨b :: l, r, by simp [hr]⟩
    · rintro ⟨l, r, hr⟩
      cases l with
      | nil =>
        left
        exact ⟨r, by simpa using hr⟩
      | cons x xs =>
        right
        simp only [List.cons_append] at hr
        injection hr with h1 h2
        exact ⟨xs, r, h2⟩

/-- One step of the cookie-value pipeline. -/
theorem survivorsOf_cons (v : HVal) (t : List HVal) :
    survivorsOf (v :: t) =
      (if toStrOk v = true ∧ (trimB v).isEmpty = false then [trimB v] else []) ++
        survivorsOf t := by
  unfold survivorsOf
  by_cases h1 : toStrOk v = true
  · by_cases h2 : (trimB v).isEmpty = true
    · simp [List.filterMap_cons, List.filter_cons, h1, h2]
    · simp [List.filterMap_cons, List.filter_cons, h1, h2, Bool.eq_false_iff.2 h2]
  · simp [List.filterMap_cons, h1]

/-- The receive side of a relay step: was a frame received. -/
def recvOk {α : Type} : Except Unit α → Bool
  | Except.ok _ => true
  | Except.error _ => false

/-- The frame a successful receive carries. -/
def recvMsg {α : Type} : Except Unit α → Option α
  | Except.ok m => some m
  | Except.error _ => none

/-! ### Claim theorems -/

/-- C1 (amended): for every header map whose Cookie values leave `N ≥ 2`
survivors after decoding and trimming, normalization produces exactly
one Cookie header joining the trimmed survivors with `"; "`, in input
order, leaving all other names untouched; with at most one survivor
the map is left unchanged. -/
theorem claim1_cookie_merge : ∀ m : HeaderMap,
    ((cookieSurvivors m).length ≤ 1 → normalizeCookieHeaders m = some m) ∧
    (2 ≤ (cookieSurvivors m).length →
      ∃ r, normalizeCookieHeaders m = some r ∧
        getAll r "cookie" = [List.intercalate (strBytes "; ") (cookieSurvivors m)] ∧
        ∀ n, nameKey n ≠ nameKey "cookie" → getAll r n = getAll m n) := by
  intro m
  constructor
  · intro h
    rw [normalizeCookieHeaders_eq]
    unfold normTotal
    rw [if_pos h]
  · intro h
    refine ⟨normTotal m, normalizeCookieHeaders_eq m, ?_, ?_⟩
    · rw [getAll_normTotal_cookie, if_neg (by omega)]
    · intro n hn
      exact getAll_normTotal_ne m n hn

/-- C1 counterexample: two Cookie headers one of which is empty are
left as two Cookie headers, not merged into one. -/
theorem claim1_counterexample :
    (getAll [("cookie", strBytes ""), ("cookie", strBytes "a")] "cookie").length = 2 ∧
    (normalizeCookieHeaders [("cookie", strBytes ""), ("cookie", strBytes "a")]).map
        (fun r => (getAll r "cookie").length) = some 2 := by
  decide

/-- C9 (amended): a header map with exactly two Cookie values of which
one is undecodable (`to_str` fails: a byte outside visible ASCII and
tab — stricter than UTF-8 validity), empty, or whitespace-only is
returned entirely unchanged: no merge happens. -/
theorem claim9_blank_cookie (m : HeaderMap) (v w : HVal)
    (hvw : getAll m "cookie" = [v, w])
    (hbad : toStrOk v = false ∨ (trimB v).isEmpty = true ∨
      toStrOk w = false ∨ (trimB w).isEmpty = true) :
    normalizeCookieHeaders m = some m := by
  have hlen : (cookieSurvivors m).length ≤ 1 := by
    unfold cookieSurvivors
    rw [hvw]
    rw [survivorsOf_cons, survivorsOf_cons]
    have hz : survivorsOf [] = [] := rfl
    rw [hz]
    rcases hbad with h | h | h | h <;>
      by_cases h1 : toStrOk v = true <;>
      by_cases h2 : (trimB v).isEmpty = false <;>
      by_cases h3 : toStrOk w = true <;>
      by_cases h4 : (trimB w).isEmpty = false <;>
      simp_all
  rw [normalizeCookieHeaders_eq]
  unfold normTotal
  rw [if_pos hlen]

/-- C9 witness: a blank first Cookie value keeps both headers. -/
theorem claim9_witness :
    normalizeCookieHeaders [("cookie", strBytes ""), ("cookie", strBytes "a")] =
      some [("cookie", strBytes ""), ("cookie", strBytes "a")] :=
  claim9_blank_cookie _ (strBytes "") (strBytes "a") (by decide)
    (Or.inr (Or.inl (by decide)))

/-- C9 counterexample: the cookie value bytes `[99, 97, 102, 195, 169]`
(UTF-8 `caf` + e-acute, valid UTF-8 but not visible ASCII) are
discarded by `to_str`, so the two decodable-by-UTF-8, nonempty Cookie
values are not merged: both headers survive — against the claim's
"only invalid UTF-8 is discarded" reading. -/
theorem claim9_counterexample :
    (trimB [99, 97, 102, 195, 169]).isEmpty = false ∧
    (getAll [("cookie", [99, 97, 102, 195, 169]), ("cookie", strBytes "x")] "cookie").length = 2 ∧
    (normalizeCookieHeaders
        [("cookie", [99, 97, 102, 195, 169]), ("cookie", strBytes "x")]).map
      (fun r => (getAll r "cookie").length) = some 2 := by
  decide

/-- C5: a request is classified as a WebSocket upgrade iff some
`Connection` value decodes and its ASCII lowercase contains the
substring `upgrade`, and some `Upgrade` value decodes and its
lowercase contains `websocket`. -/
theorem claim5_upgrade_detection : ∀ m : HeaderMap,
    isWebsocketUpgrade m = true ↔
      ((∃ v ∈ getAll m "connection", toStrOk v = true ∧
          ∃ l r, v.map lowerByte = l ++ strBytes "upgrade" ++ r) ∧
       (∃ v ∈ getAll m "upgrade", toStrOk v = true ∧
          ∃ l r, v.map lowerByte = l ++ strBytes "websocket" ++ r)) := by
  intro m
  unfold isWebsocketUpgrade headerContains
  rw [Bool.and_eq_true, List.any_eq_true, List.any_eq_true]
  constructor
  · rintro ⟨⟨v, hv, hvp⟩, ⟨w, hw, hwp⟩⟩
    rw [Bool.and_eq_true] at hvp hwp
    exact ⟨⟨v, hv, hvp.1, (listInfixB_iff _ _).1 hvp.2⟩,
      ⟨w, hw, hwp.1, (listInfixB_iff _ _).1 hwp.2⟩⟩
  · rintro ⟨⟨v, hv, hv1, hv2⟩, ⟨w, hw, hw1, hw2⟩⟩
    exact ⟨⟨v, hv, by rw [Bool.and_eq_true]; exact ⟨hv1, (listInfixB_iff _ _).2 hv2⟩⟩,
      ⟨w, hw, by rw [Bool.and_eq_true]; exact ⟨hw1, (listInfixB_iff _ _).2 hw2⟩⟩⟩

/-- Upgrade detection on concrete inputs: mixed casing inside a
keep-alive list is detected; `Upgrade: h2c` and a missing header are
not (the code's own test cases). -/
theorem upgrade_detection_examples :
    isWebsocketUpgrade [("Connection", strBytes "keep-alive, Upgrade"),
      ("Upgrade", strBytes "WebSocket")] = true ∧
    isWebsocketUpgrade [("connection", strBytes "upgrade"),
      ("upgrade", strBytes "h2c")] = false ∧
    isWebsocketUpgrade [("upgrade", strBytes "websocket")] = false ∧
    isWebsocketUpgrade [("connection", strBytes "upgrade")] = false := by
  decide

/-- C8: one relay direction forwards exactly the successfully received
frames that precede the first receive error, in arrival order and
unchanged (the message type is opaque), cut at the first send failure;
the loop stops there. -/
theorem claim8_relay {α : Type} (send : α → Bool) (events : List (Except Unit α)) :
    relayLoop send events =
      ((events.takeWhile recvOk).filterMap recvMsg).takeWhile send := by
  induction events with
  | nil => rfl
  | cons e rest ih =>
    cases e with
    | error u => rfl
    | ok msg =>
      simp only [relayLoop, List.takeWhile_cons, recvOk, if_true,
        List.filterMap_cons, recvMsg]
      by_cases hs : send msg = true
      · simp [hs, ih]
      · simp [Bool.eq_false_iff.2 hs, hs]

/-- C4 (amended): with a representable IP text the function always
succeeds; `X-Real-IP` is overwritten with the peer IP unconditionally;
`X-Forwarded-For` becomes the peer IP when absent, `"<existing>,
<peerIP>"` when the first existing value decodes and is not
whitespace-only, and the peer IP alone when the existing value is
empty, whitespace-only, or undecodable; `X-Forwarded-Proto` /
`X-Forwarded-Host` / `X-Forwarded-Port` are set to `https` / the
captured Host / `443` only when not already present. -/
theorem claim4_forwarding_headers (m : HeaderMap) (ip : HVal) (host : Option HVal)
    (hip : fromStrOk ip = true) :
    ∃ r, addForwardingHeaders m ip host = some r ∧
      getAll r "x-real-ip" = [ip] ∧
      (getFirst m "x-forwarded-for" = none → getAll r "x-forwarded-for" = [ip]) ∧
      (∀ e, getFirst m "x-forwarded-for" = some e → toStrOk e = true →
        (trimB e).isEmpty = false →
        getAll r "x-forwarded-for" = [e ++ strBytes ", " ++ ip]) ∧
      (∀ e, getFirst m "x-forwarded-for" = some e → toStrOk e = true →
        (trimB e).isEmpty = true → getAll r "x-forwarded-for" = [ip]) ∧
      (∀ e, getFirst m "x-forwarded-for" = some e → toStrOk e = false →
        getAll r "x-forwarded-for" = [ip]) ∧
      (containsKey m "x-forwarded-proto" = false →
        getAll r "x-forwarded-proto" = [strBytes "https"]) ∧
      (containsKey m "x-forwarded-proto" = true →
        getAll r "x-forwarded-proto" = getAll m "x-forwarded-proto") ∧
      (∀ h, host = some h → containsKey m "x-forwarded-host" = false →
        getAll r "x-forwarded-host" = [h]) ∧
      (containsKey m "x-forwarded-host" = true →
        getAll r "x-forwarded-host" = getAll m "x-forwarded-host") ∧
      (host = none → getAll r "x-forwarded-host" = getAll m "x-forwarded-host") ∧
      (containsKey m "x-forwarded-port" = false →
        getAll r "x-forwarded-port" = [strBytes "443"]) ∧
      (containsKey m "x-forwarded-port" = true →
        getAll r "x-forwarded-port" = getAll m "x-forwarded-port") := by
  refine ⟨fwdTotal m ip host, addForwardingHeaders_eq m host hip, ?_, ?_, ?_, ?_, ?_,
    ?_, ?_, ?_, ?_, ?_, ?_, ?_⟩
  · exact getAll_fwdTotal_realip m ip host
  · intro h
    rw [getAll_fwdTotal_xff]
    unfold xffVal
    rw [h]
  · intro e he ht htr
    rw [getAll_fwdTotal_xff]
    unfold xffVal
    rw [he]
    simp [ht, htr]
  · intro e he ht htr
    rw [getAll_fwdTotal_xff]
    unfold xffVal
    rw [he]
    simp [ht, htr]
  · intro e he ht
    rw [getAll_fwdTotal_xff]
    unfold xffVal
    rw [he]
    simp [ht, trimB]
  · intro h
    rw [getAll_fwdTotal_proto, if_neg (by simp [h])]
  · intro h
    rw [getAll_fwdTotal_proto, if_pos h]
  · intro hv hh hc
    rw [getAll_fwdTotal_host, hh]
    simp [hc]
  · intro h
    rw [getAll_fwdTotal_host]
    cases host <;> simp [h]
  · intro h
    rw [getAll_fwdTotal_host, h]
  · intro h
    rw [getAll_fwdTotal_port, if_neg (by simp [h])]
  · intro h
    rw [getAll_fwdTotal_port, if_pos h]

/-- C4 witness at the code's own test input: fresh map, appending to an
existing list, and preserving an existing proto. -/
theorem claim4_witness :
    ∃ r, addForwardingHeaders [("x-forwarded-for", strBytes "10.0.0.1, 10.0.0.2")]
        (strBytes "192.168.1.100") (some (strBytes "example.com")) = some r ∧
      getAll r "x-real-ip" = [strBytes "192.168.1.100"] ∧
      (getFirst [("x-forwarded-for", strBytes "10.0.0.1, 10.0.0.2")] "x-forwarded-for" = none →
        getAll r "x-forwarded-for" = [strBytes "192.168.1.100"]) ∧
      (∀ e, getFirst [("x-forwarded-for", strBytes "10.0.0.1, 10.0.0.2")] "x-forwarded-for" = some e →
        toStrOk e = true → (trimB e).isEmpty = false →
        getAll r "x-forwarded-for" = [e ++ strBytes ", " ++ strBytes "192.168.1.100"]) ∧
      (∀ e, getFirst [("x-forwarded-for", strBytes "10.0.0.1, 10.0.0.2")] "x-forwarded-for" = some e →
        toStrOk e = true → (trimB e).isEmpty = true →
        getAll r "x-forwarded-for" = [strBytes "192.168.1.100"]) ∧
      (∀ e, getFirst [("x-forwarded-for", strBytes "10.0.0.1, 10.0.0.2")] "x-forwarded-for" = some e →
        toStrOk e = false → getAll r "x-forwarded-for" = [strBytes "192.168.1.100"]) ∧
      (containsKey [("x-forwarded-for", strBytes "10.0.0.1, 10.0.0.2")] "x-forwarded-proto" = false →
        getAll r "x-forwarded-proto" = [strBytes "https"]) ∧
      (containsKey [("x-forwarded-for", strBytes "10.0.0.1, 10.0.0.2")] "x-forwarded-proto" = true →
        getAll r "x-forwarded-proto" =
          getAll [("x-forwarded-for", strBytes "10.0.0.1, 10.0.0.2")] "x-forwarded-proto") ∧
      (∀ h, some (strBytes "example.com") = some h →
        containsKey [("x-forwarded-for", strBytes "10.0.0.1, 10.0.0.2")] "x-forwarded-host" = false →
        getAll r "x-forwarded-host" = [h]) ∧
      (containsKey [("x-forwarded-for", strBytes "10.0.0.1, 10.0.0.2")] "x-forwarded-host" = true →
        getAll r "x-forwarded-host" =
          getAll [("x-forwarded-for", strBytes "10.0.0.1, 10.0.0.2")] "x-forwarded-host") ∧
      (some (strBytes "example.com") = none →
        getAll r "x-forwarded-host" =
          getAll [("x-forwarded-for", strBytes "10.0.0.1, 10.0.0.2")] "x-forwarded-host") ∧
      (containsKey [("x-forwarded-for", strBytes "10.0.0.1, 10.0.0.2")] "x-forwarded-port" = false →
        getAll r "x-forwarded-port" = [strBytes "443"]) ∧
      (containsKey [("x-forwarded-for", strBytes "10.0.0.1, 10.0.0.2")] "x-forwarded-port" = true →
        getAll r "x-forwarded-port" =
          getAll [("x-forwarded-for", strBytes "10.0.0.1, 10.0.0.2")] "x-forwarded-port") :=
  claim4_forwarding_headers [("x-forwarded-for", strBytes "10.0.0.1, 10.0.0.2")]
    (strBytes "192.168.1.100") (some (strBytes "example.com")) (by decide)

/-- C4 counterexample: a present but whitespace-only (hence non-empty)
`X-Forwarded-For` value yields the peer IP alone, not
`"<existing>, <peerIP>"` as the claim demands for any present non-empty
value. -/
theorem claim4_counterexample :
    (addForwardingHeaders [("x-forwarded-for", strBytes " ")] (strBytes "1.2.3.4") none).map
        (fun r => getAll r "x-forwarded-for") = some [strBytes "1.2.3.4"] ∧
    strBytes "1.2.3.4" ≠ strBytes " , 1.2.3.4" := by
  decide

/-- C7: for every request the implementation captures the Host from the
unmutated inbound headers, pins HTTP/1.1, and produces an outbound
header map that observes equal (per name, `get_all`) to applying
cookie normalization, then forwarding headers, then hop-by-hop
stripping in the spec's order. -/
theorem claim7_pipeline_order (req : Req) (u ip : HVal) (hip : fromStrOk ip = true) :
    ∃ hdrs spec,
      buildUpstreamRequest req u ip = some ⟨u, "HTTP/1.1", hdrs, req.body⟩ ∧
      specOrderPipeline req.headers ip (capturedHost req) = some spec ∧
      headerEquiv hdrs spec := by
  have h1 : buildUpstreamRequest req u ip =
      some ⟨u, "HTTP/1.1",
        normTotal (removeHopByHopHeaders (fwdTotal req.headers ip (capturedHost req))),
        req.body⟩ := by
    unfold buildUpstreamRequest
    simp only [addForwardingHeaders_eq req.headers (capturedHost req) hip,
      normalizeCookieHeaders_eq]
  have h2 : specOrderPipeline req.headers ip (capturedHost req) =
      some (removeHopByHopHeaders (fwdTotal (normTotal req.headers) ip (capturedHost req))) := by
    unfold specOrderPipeline
    simp only [normalizeCookieHeaders_eq, Option.some_bind,
      addForwardingHeaders_eq (normTotal req.headers) (capturedHost req) hip,
      Option.map_some']
  exact ⟨_, _, h1, h2, pipeline_equiv req.headers ip (capturedHost req)⟩

/-- C2: once the upstream URI and outbound request are built, exactly
one upstream request is issued (no retries); an upstream success is
returned verbatim, and a transport failure is the only error path of
the send step, producing the synthesized 502 with
`text/plain; charset=utf-8` and body `"502 Bad Gateway - <reason>"`. -/
theorem claim2_forward (req : Req) (target ip : HVal)
    (client : OutReq → Except String Resp) (u : HVal)
    (hu : buildUpstreamUri req.uri target = some u)
    (hip : fromStrOk ip = true) :
    ∃ ureq, buildUpstreamRequest req u ip = some ureq ∧
      (forwardRequest req target ip client).2 = 1 ∧
      (∀ resp, client ureq = Except.ok resp →
        (forwardRequest req target ip client).1 = resp) ∧
      (∀ e, client ureq = Except.error e →
        (forwardRequest req target ip client).1 =
          badGatewayResponse ("Upstream connection failed: " ++ e)) ∧
      (∀ e : String,
        (badGatewayResponse ("Upstream connection failed: " ++ e)).status = 502 ∧
        getAll (badGatewayResponse ("Upstream connection failed: " ++ e)).headers
          "content-type" = [strBytes "text/plain; charset=utf-8"] ∧
        (badGatewayResponse ("Upstream connection failed: " ++ e)).body =
          strBytes ("502 Bad Gateway - " ++ ("Upstream connection failed: " ++ e))) := by
  have hb : buildUpstreamRequest req u ip =
      some ⟨u, "HTTP/1.1",
        normTotal (removeHopByHopHeaders (fwdTotal req.headers ip (capturedHost req))),
        req.body⟩ := by
    unfold buildUpstreamRequest
    simp only [addForwardingHeaders_eq req.headers (capturedHost req) hip,
      normalizeCookieHeaders_eq]
  refine ⟨_, hb, ?_, ?_, ?_, ?_⟩
  · unfold forwardRequest
    simp only [hu, hb]
    cases hc : client _ <;> simp [hc]
  · intro resp hr
    unfold forwardRequest
    simp only [hu, hb, hr]
  · intro e hr
    unfold forwardRequest
    simp only [hu, hb, hr]
  · intro e
    refine ⟨rfl, ?_, rfl⟩
    have hne : nameEq "content-type" "content-type" = true := by decide
    simp [badGatewayResponse, getAll, hne]

/-- C2 witness: a failing client yields the synthesized 502, a
succeeding one is passed through, and exactly one request is issued. -/
theorem claim2_witness :
    ∃ ureq, buildUpstreamRequest ⟨⟨none, none, some (strBytes "/a")⟩, [], []⟩
        (strBytes "http://backend:8080/a") (strBytes "1.2.3.4") = some ureq ∧
      (forwardRequest ⟨⟨none, none, some (strBytes "/a")⟩, [], []⟩
        (strBytes "http://backend:8080") (strBytes "1.2.3.4")
        (fun _ => Except.error "connect refused")).2 = 1 ∧
      (∀ resp, (fun (_ : OutReq) => (Except.error "connect refused" : Except String Resp)) ureq =
          Except.ok resp →
        (forwardRequest ⟨⟨none, none, some (strBytes "/a")⟩, [], []⟩
          (strBytes "http://backend:8080") (strBytes "1.2.3.4")
          (fun _ => Except.error "connect refused")).1 = resp) ∧
      (∀ e, (fun (_ : OutReq) => (Except.error "connect refused" : Except String Resp)) ureq =
          Except.error e →
        (forwardRequest ⟨⟨none, none, some (strBytes "/a")⟩, [], []⟩
          (strBytes "http://backend:8080") (strBytes "1.2.3.4")
          (fun _ => Except.error "connect refused")).1 =
          badGatewayResponse ("Upstream connection failed: " ++ e)) ∧
      (∀ e : String,
        (badGatewayResponse ("Upstream connection failed: " ++ e)).status = 502 ∧
        getAll (badGatewayResponse ("Upstream connection failed: " ++ e)).headers
          "content-type" = [strBytes "text/plain; charset=utf-8"] ∧
        (badGatewayResponse ("Upstream connection failed: " ++ e)).body =
          strBytes ("502 Bad Gateway - " ++ ("Upstream connection failed: " ++ e))) :=
  claim2_forward ⟨⟨none, none, some (strBytes "/a")⟩, [], []⟩
    (strBytes "http://backend:8080") (strBytes "1.2.3.4")
    (fun _ => Except.error "connect refused") (strBytes "http://backend:8080/a")
    (by decide) (by decide)

/-- C3 (amended): for a target that parses with a scheme and an
authority (any trailing target path being discarded), the result is
exactly the target's scheme and authority followed by the inbound
path-and-query (defaulting to `/`), byte for byte; the function fails
exactly when the target or the rebuilt URI fails to parse — which, by
the counterexample, is weaker than "target is not an absolute URI":
an authority-only target is accepted with scheme defaulted to `http`. -/
theorem claim3_upstream_uri (orig : UriParts) (sch auth tpath : HVal)
    (hs0 : sch ≠ []) (hs : sch.all schemeCharB = true)
    (ha0 : auth ≠ []) (ha : auth.all authCharB = true)
    (ht : tpath.all pqCharB = true) (ht0 : tpath = [] ∨ tpath.head? = some 47)
    (hpq : (orig.pathAndQuery.getD (strBytes "/")).all pqCharB = true)
    (hpq0 : (orig.pathAndQuery.getD (strBytes "/")).head? = some 47) :
    buildUpstreamUri orig (sch ++ [58, 47, 47] ++ auth ++ tpath) =
      some (sch ++ [58, 47, 47] ++ auth ++ orig.pathAndQuery.getD (strBytes "/")) :=
  buildUpstreamUri_absolute orig sch auth tpath hs0 hs ha0 ha ht ht0 hpq hpq0

/-- C3 witness: the spec's own example — target `http://backend:8080`,
inbound `/search?q=hello&page=2`. -/
theorem claim3_witness :
    buildUpstreamUri ⟨none, none, some (strBytes "/search?q=hello&page=2")⟩
        (strBytes "http" ++ [58, 47, 47] ++ strBytes "backend:8080" ++ []) =
      some (strBytes "http" ++ [58, 47, 47] ++ strBytes "backend:8080" ++
        (UriParts.mk none none
          (some (strBytes "/search?q=hello&page=2"))).pathAndQuery.getD (strBytes "/")) ∧
    strBytes "http" ++ [58, 47, 47] ++ strBytes "backend:8080" ++
        (UriParts.mk none none
          (some (strBytes "/search?q=hello&page=2"))).pathAndQuery.getD (strBytes "/") =
      strBytes "http://backend:8080/search?q=hello&page=2" :=
  ⟨claim3_upstream_uri ⟨none, none, some (strBytes "/search?q=hello&page=2")⟩
      (strBytes "http") (strBytes "backend:8080") [] (by decide) (by decide)
      (by decide) (by decide) (by decide) (Or.inl rfl) (by decide) (by decide),
    by decide⟩

/-- C3 counterexample: the authority-only target `example.com` does not
parse as an absolute URI (no scheme), yet `build_upstream_uri`
succeeds, inventing the scheme `http` — the claim says it must fail
exactly then. -/
theorem claim3_counterexample :
    (parseUri (strBytes "example.com")).map (fun t => t.scheme) = some none ∧
    buildUpstreamUri ⟨none, none, some (strBytes "/")⟩ (strBytes "example.com") =
      some (strBytes "http://example.com/") := by
  decide

/-- C6: for every upgrade request with a parseable target, a missing
`Sec-WebSocket-Key` aborts with the 502 `Missing Sec-WebSocket-Key`
and no upstream connection is attempted; with a key the handler
returns `101` carrying `Connection: Upgrade`, `Upgrade: websocket`,
and `Sec-WebSocket-Accept` computed as base64 of the SHA-1 of the key
concatenated with the RFC 6455 GUID, and the tunnel task will connect
to scheme `wss` (target scheme `https`) or `ws` (anything else)
followed by the target authority and inbound path-and-query. -/
theorem claim6_ws_handshake (req : Req) (target : HVal) (t : UriParts)
    (htgt : parseUri target = some t) :
    (getFirst req.headers "sec-websocket-key" = none →
      handleWebsocketUpgrade req target =
        (badGatewayResponse "Missing Sec-WebSocket-Key", none)) ∧
    (∀ k, getFirst req.headers "sec-websocket-key" = some k →
      handleWebsocketUpgrade req target =
        (⟨101, [("Connection", strBytes "Upgrade"),
                ("Upgrade", strBytes "websocket"),
                ("Sec-WebSocket-Accept", base64Bytes (sha1 (k ++ strBytes wsGuid)))],
          []⟩,
         some ((if t.scheme = some (strBytes "https") then strBytes "wss" else strBytes "ws") ++
           strBytes "://" ++ t.authority.getD [] ++
           req.uri.pathAndQuery.getD (strBytes "/")))) := by
  constructor
  · intro hk
    unfold handleWebsocketUpgrade
    simp only [htgt, hk]
  · intro k hk
    unfold handleWebsocketUpgrade deriveAcceptKey
    simp only [htgt, hk]
    by_cases hsch : t.scheme = some (strBytes "https") <;>
      simp [beq_iff_eq, hsch]

set_option maxRecDepth 100000 in
/-- C6 witness: the RFC 6455 sample key over an `https` target: the
computed accept key is the RFC's `s3pPLMBiTxaQ9kYGzzhZRbK+xOo=` and
the connect invocation is the `wss` URL. -/
theorem claim6_witness :
    handleWebsocketUpgrade
        ⟨⟨none, none, some (strBytes "/chat?x=1")⟩,
          [("sec-websocket-key", strBytes "dGhlIHNhbXBsZSBub25jZQ==")], []⟩
        (strBytes "https://backend:8443") =
      (⟨101, [("Connection", strBytes "Upgrade"),
              ("Upgrade", strBytes "websocket"),
              ("Sec-WebSocket-Accept",
                base64Bytes (sha1 (strBytes "dGhlIHNhbXBsZSBub25jZQ==" ++ strBytes wsGuid)))],
        []⟩,
       some ((if (UriParts.mk (some (strBytes "https")) (some (strBytes "backend:8443"))
              none).scheme = some (strBytes "https") then strBytes "wss" else strBytes "ws") ++
         strBytes "://" ++
         (UriParts.mk (some (strBytes "https")) (some (strBytes "backend:8443"))
            none).authority.getD [] ++
         (Req.mk ⟨none, none, some (strBytes "/chat?x=1")⟩
            [("sec-websocket-key", strBytes "dGhlIHNhbXBsZSBub25jZQ==")]
            []).uri.pathAndQuery.getD (strBytes "/"))) ∧
    base64Bytes (sha1 (strBytes "dGhlIHNhbXBsZSBub25jZQ==" ++ strBytes wsGuid)) =
      strBytes "s3pPLMBiTxaQ9kYGzzhZRbK+xOo=" ∧
    (if (UriParts.mk (some (strBytes "https")) (some (strBytes "backend:8443"))
        none).scheme = some (strBytes "https") then strBytes "wss" else strBytes "ws") ++
      strBytes "://" ++
      (UriParts.mk (some (strBytes "https")) (some (strBytes "backend:8443"))
        none).authority.getD [] ++
      (Req.mk ⟨none, none, some (strBytes "/chat?x=1")⟩
        [("sec-websocket-key", strBytes "dGhlIHNhbXBsZSBub25jZQ==")]
        []).uri.pathAndQuery.getD (strBytes "/") =
      strBytes "wss://backend:8443/chat?x=1" :=
  ⟨(claim6_ws_handshake
      ⟨⟨none, none, some (strBytes "/chat?x=1")⟩,
        [("sec-websocket-key", strBytes "dGhlIHNhbXBsZSBub25jZQ==")], []⟩
      (strBytes "https://backend:8443")
      ⟨some (strBytes "https"), some (strBytes "backend:8443"), none⟩
      (by decide)).2 (strBytes "dGhlIHNhbXBsZSBub25jZQ==") (by decide),
    by decide, by decide⟩

/-- C7 witness: a request carrying a Host, two Cookie headers and a
`Connection` header goes through both pipeline orders with observably
equal outcomes. -/
theorem claim7_witness :
    ∃ hdrs spec,
      buildUpstreamRequest
          ⟨⟨none, none, some (strBytes "/a")⟩,
            [("host", strBytes "h.example"), ("cookie", strBytes "a"),
             ("cookie", strBytes "b"), ("connection", strBytes "keep-alive")], []⟩
          (strBytes "http://b/a") (strBytes "9.9.9.9") =
        some ⟨strBytes "http://b/a", "HTTP/1.1", hdrs,
          (Req.mk ⟨none, none, some (strBytes "/a")⟩
            [("host", strBytes "h.example"), ("cookie", strBytes "a"),
             ("cookie", strBytes "b"), ("connection", strBytes "keep-alive")] []).body⟩ ∧
      specOrderPipeline
          (Req.mk ⟨none, none, some (strBytes "/a")⟩
            [("host", strBytes "h.example"), ("cookie", strBytes "a"),
             ("cookie", strBytes "b"), ("connection", strBytes "keep-alive")] []).headers
          (strBytes "9.9.9.9")
          (capturedHost (Req.mk ⟨none, none, some (strBytes "/a")⟩
            [("host", strBytes "h.example"), ("cookie", strBytes "a"),
             ("cookie", strBytes "b"), ("connection", strBytes "keep-alive")] [])) =
        some spec ∧
      headerEquiv hdrs spec :=
  claim7_pipeline_order
    ⟨⟨none, none, some (strBytes "/a")⟩,
      [("host", strBytes "h.example"), ("cookie", strBytes "a"),
       ("cookie", strBytes "b"), ("connection", strBytes "keep-alive")], []⟩
    (strBytes "http://b/a") (strBytes "9.9.9.9") (by decide)

/-- C10: the upstream connect invocation of the tunnel task depends
only on the target and the inbound path-and-query — for two upgrade
requests agreeing there and both carrying some key, it is identical,
whatever their other headers. -/
theorem claim10_ws_noninterference (r1 r2 : Req) (target : HVal)
    (hpq : r1.uri.pathAndQuery = r2.uri.pathAndQuery)
    (h1 : (getFirst r1.headers "sec-websocket-key").isSome = true)
    (h2 : (getFirst r2.headers "sec-websocket-key").isSome = true) :
    (handleWebsocketUpgrade r1 target).2 = (handleWebsocketUpgrade r2 target).2 := by
  unfold handleWebsocketUpgrade
  cases htgt : parseUri target with
  | none => rfl
  | some t =>
    obtain ⟨k1, hk1⟩ := Option.isSome_iff_exists.1 h1
    obtain ⟨k2, hk2⟩ := Option.isSome_iff_exists.1 h2
    simp only [hk1, hk2, hpq]

/-- C10 witness: a request with a cookie and authorization and one
without produce the same connect invocation. -/
theorem claim10_witness :
    (handleWebsocketUpgrade
        ⟨⟨none, none, some (strBytes "/chat")⟩,
          [("sec-websocket-key", strBytes "AAAA"), ("cookie", strBytes "s=1"),
           ("authorization", strBytes "Bearer x")], []⟩
        (strBytes "http://backend")).2 =
      (handleWebsocketUpgrade
        ⟨⟨none, none, some (strBytes "/chat")⟩,
          [("sec-websocket-key", strBytes "BBBB")], []⟩
        (strBytes "http://backend")).2 :=
  claim10_ws_noninterference
    ⟨⟨none, none, some (strBytes "/chat")⟩,
      [("sec-websocket-key", strBytes "AAAA"), ("cookie", strBytes "s=1"),
       ("authorization", strBytes "Bearer x")], []⟩
    ⟨⟨none, none, some (strBytes "/chat")⟩,
      [("sec-websocket-key", strBytes "BBBB")], []⟩
    (strBytes "http://backend") (by decide) (by decide) (by decide)

end HttpsProxy
